import Mathlib

/-!
Verification of SimpleBinomialModel.py (sdanish1998/option-pricing).

Shallow embedding of `src/option-pricing/SimpleBinomialModel.py` over ℚ
(Python's binary floats are modelled as exact rationals; every claimed
numeric identity is exact in this model, matching the spec's
"floating-point equality modulo standard numeric epsilon").

The Python class `SimpleBinomialModel` stores parameters
S0, K, N, u, d, r and a risk-neutral probability `pi` computed at
construction.  Python raises `ZeroDivisionError` when the denominator
`u - d` of `calculate_pi` is zero; the constructor is therefore embedded
as an `Except`.  The source performs no other validation and defines no
`InvalidParameterError`.

`run_multiperiod_model` (lines 43-77) reads the free names `N`, `S0`
(lines 52-53) and calls the free names `option_price`, `stock_position`,
`bond_position` (lines 65-67) without `self.`; the module binds none of
them at top level, so Python resolves these against the module globals
and raises `NameError` at line 52.  The embedding keeps both readings:
`run_multiperiod_model_asWritten` takes the global bindings of the five
free names as explicit arguments (the module supplies `none` for all
five), and `run_multiperiod_model` is the intended-semantics reading in
which every free name is bound to the instance's own field or method,
as the spec's design notes prescribe.
-/

/-- Exceptions the embedded Python code can raise.  The source defines no
`InvalidParameterError`; the only exceptions reachable in
`SimpleBinomialModel.py` are `ZeroDivisionError` (from `calculate_pi`
when `u == d`) and `NameError` (from the unbound free names in
`run_multiperiod_model`). -/
inductive PyError where
  | zeroDivisionError : PyError
  | nameError : String → PyError
  deriving DecidableEq, Repr

/-- The state of a constructed `SimpleBinomialModel` instance: the six
attributes set by `__init__` (lines 17-22) plus the stored risk-neutral
probability `self.pi` (line 23).  Python's `maturity` is an `int`, hence
`N : ℤ`; all prices, factors and rates are ℚ. -/
structure SimpleBinomialModel where
  S0 : ℚ
  K : ℚ
  N : ℤ
  u : ℚ
  d : ℚ
  r : ℚ
  pi : ℚ
  deriving DecidableEq, Repr

namespace SimpleBinomialModel

/-- Method `calculate_pi` (lines 26-27): `((1 + self.r) - self.d)/(self.u - self.d)`. -/
def calculate_pi (m : SimpleBinomialModel) : ℚ :=
  ((1 + m.r) - m.d) / (m.u - m.d)

/-- `__init__` (lines 8-23): stores the six parameters verbatim and sets
`self.pi = self.calculate_pi()`.  Python float division raises
`ZeroDivisionError` when the denominator `self.u - self.d` equals zero,
so construction is fallible; no other check is performed (the source
validates nothing and defines no `InvalidParameterError`). -/
def init (stock_price strike_price : ℚ) (maturity : ℤ) (up down rate : ℚ) :
    Except PyError SimpleBinomialModel :=
  if up - down = 0 then
    .error .zeroDivisionError
  else
    .ok { S0 := stock_price, K := strike_price, N := maturity,
          u := up, d := down, r := rate,
          pi := ((1 + rate) - down) / (up - down) }

/-- Method `option_price` (lines 30-33): the one-step discounted
risk-neutral expectation `(self.pi*Xu + (1 - self.pi)*Xd)/(1 + self.r)`. -/
def option_price (m : SimpleBinomialModel) (Xu Xd : ℚ) : ℚ :=
  (m.pi * Xu + (1 - m.pi) * Xd) / (1 + m.r)

/-- Method `stock_position` (lines 36-37): the hedge ratio (delta)
`(Xu - Xd)/(S*(self.u - self.d))`. -/
def stock_position (m : SimpleBinomialModel) (Xu Xd S : ℚ) : ℚ :=
  (Xu - Xd) / (S * (m.u - m.d))

/-- Method `bond_position` (lines 40-41): the money-market position (eta)
`(self.u*Xd - self.d*Xu)/((self.u - self.d)*(1 + self.r))`; its third
parameter `S` is unused in the source body. -/
def bond_position (m : SimpleBinomialModel) (Xu Xd S : ℚ) : ℚ :=
  (m.u * Xd - m.d * Xu) / ((m.u - m.d) * (1 + m.r))

end SimpleBinomialModel

/-- The return type of `run_multiperiod_model`: the four parallel
lattices `S, X, delta, eta`, each a list of per-time-step lists. -/
abbrev LatticeResult :=
  List (List ℚ) × List (List ℚ) × List (List ℚ) × List (List ℚ)

/-- The backward pass of `run_multiperiod_model` (lines 59-75), written
as structural recursion on the number of remaining loop iterations
(`t + 1`, since the Python `while` runs for `t = self.N-1, ..., 0`).
`ST`/`XT` are the stock-price and option-value rows of the level just
above the one being computed, exactly as the loop's carried state
(line 74).  Prepending each finished row with `insert(0, ·)` as `t`
descends produces the same list as computing the lower rows first and
appending the current row, which is the shape used here.  The one-step
valuation and hedge functions are parameters `fX`, `fD`, `fE` because
the source calls them through the free names `option_price`,
`stock_position`, `bond_position` (lines 65-67); `u` is `self.u`
(lines 64, 66, 67).  Python's in-bounds list indexing `ST[i]`, `XT[i+1]`
is modelled by `List.getD` (all accesses are in bounds when the rows
have their lattice lengths). -/
def backLevels (fX : ℚ → ℚ → ℚ) (fD fE : ℚ → ℚ → ℚ → ℚ) (u : ℚ) :
    ℕ → List ℚ → List ℚ → LatticeResult
  | 0, ST, XT => ([ST], [XT], [], [])
  | t + 1, ST, XT =>
      let St := (List.range (t + 1)).map fun i => ST.getD i 0 / u
      let Xt := (List.range (t + 1)).map fun i =>
        fX (XT.getD i 0) (XT.getD (i + 1) 0)
      let dt := (List.range (t + 1)).map fun i =>
        fD (XT.getD i 0) (XT.getD (i + 1) 0) (ST.getD i 0 / u)
      let et := (List.range (t + 1)).map fun i =>
        fE (XT.getD i 0) (XT.getD (i + 1) 0) (ST.getD i 0 / u)
      let rest := backLevels fX fD fE u t St Xt
      (rest.1 ++ [ST], rest.2.1 ++ [XT], rest.2.2.1 ++ [dt], rest.2.2.2 ++ [et])

/-- The terminal stock-price row of the forward pass (lines 52-54):
`Si = S0 * u**(N-i) * d**i` for `i in range(N+1)`.  The range bound and
base price are parameters (`n`, `s0`) because line 52 reads the free
name `N` and line 53 the free name `S0`; the exponent base `N` and the
factors are `self.N`, `self.u`, `self.d`.  Python's `range` is empty
for a non-positive bound, hence `Int.toNat`. -/
def terminalStock (m : SimpleBinomialModel) (n : ℤ) (s0 : ℚ) : List ℚ :=
  (List.range (n + 1).toNat).map fun (i : ℕ) =>
    s0 * m.u ^ (m.N - (i : ℤ)) * m.d ^ ((i : ℤ))

/-- The terminal option-value row (line 55): `max(Si - self.K, 0)` for
each terminal stock price `Si`. -/
def terminalValue (m : SimpleBinomialModel) (ST : List ℚ) : List ℚ :=
  ST.map fun Si => max (Si - m.K) 0

/-- Modelled from the spec: `run_multiperiod_model` under the intended
semantics stated in the spec's design notes — the free names `N`, `S0`,
`option_price`, `stock_position`, `bond_position` of lines 52-53 and
65-67 (absent from the module's globals) are read as the instance's own
field or bound method.  Everything else is the literal source: forward
pass (lines 50-57) building the terminal rows, then the backward
`while` loop (lines 59-75). -/
def run_multiperiod_model (m : SimpleBinomialModel) : LatticeResult :=
  let ST := terminalStock m m.N m.S0
  let XT := terminalValue m ST
  backLevels m.option_price m.stock_position m.bond_position m.u m.N.toNat ST XT

/-- `run_multiperiod_model` exactly as written (lines 43-77): the five
free names are resolved against the module's global namespace, passed
here explicitly as `gN`, `gS0`, `gX`, `gD`, `gE`.  CPython raises
`NameError` at the first unbound lookup: `N` at line 52, then `S0` at
line 53, then — only when the `while` body runs, i.e. `self.N ≥ 1` —
`option_price` at line 65, `stock_position` at line 66, `bond_position`
at line 67.  When all five are bound the computation proceeds with
those bindings. -/
def run_multiperiod_model_asWritten (gN : Option ℤ) (gS0 : Option ℚ)
    (gX : Option (ℚ → ℚ → ℚ)) (gD gE : Option (ℚ → ℚ → ℚ → ℚ))
    (m : SimpleBinomialModel) : Except PyError LatticeResult :=
  match gN with
  | none => .error (.nameError "N")
  | some n =>
      match gS0 with
      | none => .error (.nameError "S0")
      | some s0 =>
          let ST := terminalStock m n s0
          let XT := terminalValue m ST
          if 1 ≤ m.N then
            match gX, gD, gE with
            | none, _, _ => .error (.nameError "option_price")
            | some _, none, _ => .error (.nameError "stock_position")
            | some _, some _, none => .error (.nameError "bond_position")
            | some fX, some fD, some fE =>
                .ok (backLevels fX fD fE m.u m.N.toNat ST XT)
          else
            .ok ([ST], [XT], [], [])

/-- The concrete scenario of the spec: `SimpleBinomialModel(100, 100, 1, 1.1, 0.9, 0.0)`.
Its stored `pi` is the value `__init__` computes (see `mC1_init`). -/
def mC1 : SimpleBinomialModel :=
  { S0 := 100, K := 100, N := 1, u := 11/10, d := 9/10, r := 0, pi := 1/2 }

/-- A degenerate scenario with zero periods:
`SimpleBinomialModel(100, 80, 0, 1.1, 0.9, 0.0)`. -/
def mC10 : SimpleBinomialModel :=
  { S0 := 100, K := 80, N := 0, u := 11/10, d := 9/10, r := 0, pi := 1/2 }

/-- The shape stated by the spec for the output of `run_multiperiod_model`,
read literally: each of the four returned sequences is indexed by the time
steps t = 0..N and its inner sequence at t has length t+1.  (This is the
claim's wording, kept separate so it can be compared with what the code
produces; the code gives the delta and eta sequences only N entries.) -/
def specFourSeqShape (m : SimpleBinomialModel) : Prop :=
  ∀ L ∈ [(run_multiperiod_model m).1, (run_multiperiod_model m).2.1,
         (run_multiperiod_model m).2.2.1, (run_multiperiod_model m).2.2.2],
    ∀ t : ℕ, t ≤ m.N.toNat → t < L.length ∧ (L.getD t []).length = t + 1

/-- Outer lengths of the four lattices produced by the backward pass:
the stock-price and option-value lists carry one row per time step
0..k (the terminal row included), the delta and eta lists one row per
non-terminal step 0..k-1. -/
lemma backLevels_length (fX : ℚ → ℚ → ℚ) (fD fE : ℚ → ℚ → ℚ → ℚ) (u : ℚ)
    (k : ℕ) (ST XT : List ℚ) :
    (backLevels fX fD fE u k ST XT).1.length = k + 1 ∧
    (backLevels fX fD fE u k ST XT).2.1.length = k + 1 ∧
    (backLevels fX fD fE u k ST XT).2.2.1.length = k ∧
    (backLevels fX fD fE u k ST XT).2.2.2.length = k := by
  induction k generalizing ST XT with
  | zero => simp [backLevels]
  | succ t ih => simp [backLevels, ih]

/-- The last rows of the stock-price and option-value lattices are the
terminal rows the backward pass started from. -/
lemma backLevels_terminal (fX : ℚ → ℚ → ℚ) (fD fE : ℚ → ℚ → ℚ → ℚ) (u : ℚ)
    (k : ℕ) (ST XT : List ℚ) :
    (backLevels fX fD fE u k ST XT).1.getD k [] = ST ∧
    (backLevels fX fD fE u k ST XT).2.1.getD k [] = XT := by
  induction k generalizing ST XT with
  | zero => simp [backLevels]
  | succ t ih =>
      have hl := backLevels_length fX fD fE u t
        ((List.range (t + 1)).map fun i => ST.getD i 0 / u)
        ((List.range (t + 1)).map fun i => fX (XT.getD i 0) (XT.getD (i + 1) 0))
      constructor
      · simp only [backLevels]
        rw [List.getD_append_right _ _ _ _ (by rw [hl.1])]
        rw [hl.1]
        simp
      · simp only [backLevels]
        rw [List.getD_append_right _ _ _ _ (by rw [hl.2.1])]
        rw [hl.2.1]
        simp

/-- Row lengths of the stock-price and option-value lattices: when the
input terminal rows have length k+1, the row at each time step t ≤ k has
length t+1. -/
lemma backLevels_row_length (fX : ℚ → ℚ → ℚ) (fD fE : ℚ → ℚ → ℚ → ℚ) (u : ℚ)
    (k : ℕ) (ST XT : List ℚ) (hST : ST.length = k + 1) (hXT : XT.length = k + 1) :
    ∀ t, t ≤ k →
      ((backLevels fX fD fE u k ST XT).1.getD t []).length = t + 1 ∧
      ((backLevels fX fD fE u k ST XT).2.1.getD t []).length = t + 1 := by
  induction k generalizing ST XT with
  | zero =>
      intro t ht
      interval_cases t
      simp [backLevels, hST, hXT]
  | succ k ih =>
      intro t ht
      have hl := backLevels_length fX fD fE u k
        ((List.range (k + 1)).map fun i => ST.getD i 0 / u)
        ((List.range (k + 1)).map fun i => fX (XT.getD i 0) (XT.getD (i + 1) 0))
      rcases Nat.lt_or_ge t (k + 1) with hlt | hge
      · have hrec := ih ((List.range (k + 1)).map fun i => ST.getD i 0 / u)
          ((List.range (k + 1)).map fun i => fX (XT.getD i 0) (XT.getD (i + 1) 0))
          (by simp) (by simp) t (Nat.lt_succ_iff.mp hlt)
        constructor
        · simp only [backLevels]
          rw [List.getD_append _ _ _ _ (by rw [hl.1]; exact hlt)]
          exact hrec.1
        · simp only [backLevels]
          rw [List.getD_append _ _ _ _ (by rw [hl.2.1]; exact hlt)]
          exact hrec.2
      · have ht' : t = k + 1 := le_antisymm ht hge
        subst ht'
        constructor
        · simp only [backLevels]
          rw [List.getD_append_right _ _ _ _ (by rw [hl.1])]
          rw [hl.1]
          simpa using hST
        · simp only [backLevels]
          rw [List.getD_append_right _ _ _ _ (by rw [hl.2.1])]
          rw [hl.2.1]
          simpa using hXT

/-- Row lengths of the delta and eta lattices: the row at each
non-terminal time step t < k has length t+1 (there is no row at the
terminal step). -/
lemma backLevels_hedge_length (fX : ℚ → ℚ → ℚ) (fD fE : ℚ → ℚ → ℚ → ℚ) (u : ℚ)
    (k : ℕ) (ST XT : List ℚ) :
    ∀ t, t < k →
      ((backLevels fX fD fE u k ST XT).2.2.1.getD t []).length = t + 1 ∧
      ((backLevels fX fD fE u k ST XT).2.2.2.getD t []).length = t + 1 := by
  induction k generalizing ST XT with
  | zero => intro t ht; exact absurd ht (Nat.not_lt_zero t)
  | succ k ih =>
      intro t ht
      have hl := backLevels_length fX fD fE u k
        ((List.range (k + 1)).map fun i => ST.getD i 0 / u)
        ((List.range (k + 1)).map fun i => fX (XT.getD i 0) (XT.getD (i + 1) 0))
      rcases Nat.lt_or_ge t k with hlt | hge
      · have hrec := ih ((List.range (k + 1)).map fun i => ST.getD i 0 / u)
          ((List.range (k + 1)).map fun i => fX (XT.getD i 0) (XT.getD (i + 1) 0))
          t hlt
        constructor
        · simp only [backLevels]
          rw [List.getD_append _ _ _ _ (by rw [hl.2.2.1]; exact hlt)]
          exact hrec.1
        · simp only [backLevels]
          rw [List.getD_append _ _ _ _ (by rw [hl.2.2.2]; exact hlt)]
          exact hrec.2
      · have ht' : t = k := le_antisymm (Nat.lt_succ_iff.mp ht) hge
        subst ht'
        constructor
        · simp only [backLevels]
          rw [List.getD_append_right _ _ _ _ (by rw [hl.2.2.1])]
          rw [hl.2.2.1]
          simp
        · simp only [backLevels]
          rw [List.getD_append_right _ _ _ _ (by rw [hl.2.2.2])]
          rw [hl.2.2.2]
          simp

/-- Constructing the spec's concrete scenario succeeds and stores π = 1/2. -/
lemma init_mC1 :
    SimpleBinomialModel.init 100 100 1 (11/10) (9/10) 0 = .ok mC1 := by
  rw [SimpleBinomialModel.init, if_neg (by norm_num)]
  norm_num [mC1]

/-- Full evaluation of the lattice for the concrete scenario
S0=100, K=100, N=1, u=1.1, d=0.9, r=0. -/
lemma run_mC1_eval :
    run_multiperiod_model mC1 = ([[100], [110, 90]], [[5], [10, 0]], [[1/2]], [[-45]]) := by
  simp [run_multiperiod_model, backLevels, terminalStock, terminalValue,
    SimpleBinomialModel.option_price, SimpleBinomialModel.stock_position,
    SimpleBinomialModel.bond_position, mC1, List.range_succ]
  norm_num

/-- Claim C1: for the instance constructed with stock_price=100,
strike_price=100, maturity=1, up=1.1, down=0.9, rate=0, the stored
risk-neutral probability pi equals 1/2, and run_multiperiod_model (with
its free names bound to the instance, per the spec's intended semantics)
returns terminal option values [10, 0], option value 5 at the root node
X[0][0], delta[0][0] = 1/2 and eta[0][0] = -45. -/
theorem claim_C1_scenario :
    SimpleBinomialModel.init 100 100 1 (11/10) (9/10) 0 = .ok mC1 ∧
    mC1.pi = 1/2 ∧
    (run_multiperiod_model mC1).2.1.getD 1 [] = [10, 0] ∧
    ((run_multiperiod_model mC1).2.1.getD 0 []).getD 0 0 = 5 ∧
    ((run_multiperiod_model mC1).2.2.1.getD 0 []).getD 0 0 = 1/2 ∧
    ((run_multiperiod_model mC1).2.2.2.getD 0 []).getD 0 0 = -45 := by
  refine ⟨init_mC1, rfl, ?_, ?_, ?_, ?_⟩ <;> rw [run_mC1_eval] <;> rfl

/-- Claim C2 (code bug): the constructor performs no parameter
validation and the source defines no InvalidParameterError.  With
up = down it raises ZeroDivisionError (an exception of a different
type), while periods = -1, initial_price = -5 ≤ 0 and
up_factor < down_factor all construct successfully with no exception. -/
theorem claim_C2_no_validation :
    SimpleBinomialModel.init 100 100 1 1 1 0 = .error .zeroDivisionError ∧
    (∃ m, SimpleBinomialModel.init 100 100 (-1) (11/10) (9/10) 0 = .ok m) ∧
    (∃ m, SimpleBinomialModel.init (-5) 100 1 (11/10) (9/10) 0 = .ok m) ∧
    (∃ m, SimpleBinomialModel.init 100 100 1 (9/10) (11/10) 0 = .ok m) := by
  refine ⟨?_,
    ⟨⟨100, 100, -1, 11/10, 9/10, 0, ((1 + 0) - 9/10) / (11/10 - 9/10)⟩, ?_⟩,
    ⟨⟨-5, 100, 1, 11/10, 9/10, 0, ((1 + 0) - 9/10) / (11/10 - 9/10)⟩, ?_⟩,
    ⟨⟨100, 100, 1, 9/10, 11/10, 0, ((1 + 0) - 11/10) / (9/10 - 11/10)⟩, ?_⟩⟩
  · rw [SimpleBinomialModel.init, if_pos (by norm_num)]
  · rw [SimpleBinomialModel.init, if_neg (by norm_num)]
  · rw [SimpleBinomialModel.init, if_neg (by norm_num)]
  · rw [SimpleBinomialModel.init, if_neg (by norm_num)]

/-- Claim C3 (code bug): run_multiperiod_model as written does not
compute from the instance's stored parameters — resolved against the
module's actual (empty) bindings for its five free names, every call
raises NameError for N before producing anything.  Binding the five
free names to the instance's own fields and bound methods (the spec's
stated intended semantics) yields exactly the instance-state
computation run_multiperiod_model. -/
theorem claim_C3_free_names (m : SimpleBinomialModel) :
    run_multiperiod_model_asWritten none none none none none m
        = .error (.nameError "N") ∧
    run_multiperiod_model_asWritten (some m.N) (some m.S0) (some m.option_price)
        (some m.stock_position) (some m.bond_position) m
        = .ok (run_multiperiod_model m) := by
  constructor
  · rfl
  · simp only [run_multiperiod_model_asWritten, run_multiperiod_model]
    split_ifs with hN
    · rfl
    · have h0 : m.N.toNat = 0 := by omega
      rw [h0]
      rfl

/-- Claim C4 is false as stated: in the N = 1 scenario the delta
sequence has a single inner list (time step 0 only), so there is no
inner sequence at time step N = 1 — the claim's shape fails for the
delta (and eta) lattices. -/
theorem claim_C4_counterexample : ¬ specFourSeqShape mC1 := by
  intro h
  have h1 := (h (run_multiperiod_model mC1).2.2.1 (by simp) 1 (by norm_num [mC1])).1
  rw [run_mC1_eval] at h1
  simp at h1

/-- Claim C4 (amended): for every parameter set with N ≥ 0 periods, the
stock-price and option-value sequences have N+1 inner sequences (time
steps 0..N) and the delta and eta sequences have N inner sequences
(time steps 0..N-1); in every case the inner sequence at time step t
has length t+1.  In particular len(option_values[0]) = 1 and
len(option_values[N]) = N+1. -/
theorem claim_C4_amended (m : SimpleBinomialModel) (h : 0 ≤ m.N) :
    ((run_multiperiod_model m).1.length = m.N.toNat + 1 ∧
     (run_multiperiod_model m).2.1.length = m.N.toNat + 1 ∧
     (run_multiperiod_model m).2.2.1.length = m.N.toNat ∧
     (run_multiperiod_model m).2.2.2.length = m.N.toNat) ∧
    (∀ t, t ≤ m.N.toNat →
      ((run_multiperiod_model m).1.getD t []).length = t + 1 ∧
      ((run_multiperiod_model m).2.1.getD t []).length = t + 1) ∧
    (∀ t, t < m.N.toNat →
      ((run_multiperiod_model m).2.2.1.getD t []).length = t + 1 ∧
      ((run_multiperiod_model m).2.2.2.getD t []).length = t + 1) := by
  have hST : (terminalStock m m.N m.S0).length = m.N.toNat + 1 := by
    simp only [terminalStock, List.length_map, List.length_range]
    omega
  have hXT : (terminalValue m (terminalStock m m.N m.S0)).length = m.N.toNat + 1 := by
    simpa [terminalValue] using hST
  refine ⟨?_, ?_, ?_⟩
  · simpa only [run_multiperiod_model] using
      backLevels_length m.option_price m.stock_position m.bond_position m.u m.N.toNat
        (terminalStock m m.N m.S0) (terminalValue m (terminalStock m m.N m.S0))
  · intro t ht
    simpa only [run_multiperiod_model] using
      backLevels_row_length m.option_price m.stock_position m.bond_position m.u m.N.toNat
        (terminalStock m m.N m.S0) (terminalValue m (terminalStock m m.N m.S0)) hST hXT t ht
  · intro t ht
    simpa only [run_multiperiod_model] using
      backLevels_hedge_length m.option_price m.stock_position m.bond_position m.u m.N.toNat
        (terminalStock m m.N m.S0) (terminalValue m (terminalStock m m.N m.S0)) t ht

/-- Witness for claim C4 (amended) at the concrete N = 1 scenario. -/
theorem claim_C4_amended_witness :
    (0 : ℤ) ≤ mC1.N ∧
    (((run_multiperiod_model mC1).1.length = mC1.N.toNat + 1 ∧
      (run_multiperiod_model mC1).2.1.length = mC1.N.toNat + 1 ∧
      (run_multiperiod_model mC1).2.2.1.length = mC1.N.toNat ∧
      (run_multiperiod_model mC1).2.2.2.length = mC1.N.toNat) ∧
     (∀ t, t ≤ mC1.N.toNat →
       ((run_multiperiod_model mC1).1.getD t []).length = t + 1 ∧
       ((run_multiperiod_model mC1).2.1.getD t []).length = t + 1) ∧
     (∀ t, t < mC1.N.toNat →
       ((run_multiperiod_model mC1).2.2.1.getD t []).length = t + 1 ∧
       ((run_multiperiod_model mC1).2.2.2.getD t []).length = t + 1)) :=
  ⟨by norm_num [mC1], claim_C4_amended mC1 (by norm_num [mC1])⟩

/-- Claim C5: in the forward pass, for every N ≥ 0 and every down-count
i ≤ N, the terminal stock price at i is S0·u^(N-i)·d^i and the terminal
option value at i is max(S0·u^(N-i)·d^i − K, 0). -/
theorem claim_C5_terminal (m : SimpleBinomialModel) (h : 0 ≤ m.N)
    (i : ℕ) (hi : i ≤ m.N.toNat) :
    ((run_multiperiod_model m).1.getD m.N.toNat []).getD i 0
        = m.S0 * m.u ^ (m.N - (i : ℤ)) * m.d ^ (i : ℤ) ∧
    ((run_multiperiod_model m).2.1.getD m.N.toNat []).getD i 0
        = max (m.S0 * m.u ^ (m.N - (i : ℤ)) * m.d ^ (i : ℤ) - m.K) 0 := by
  have hterm := backLevels_terminal m.option_price m.stock_position m.bond_position m.u
    m.N.toNat (terminalStock m m.N m.S0) (terminalValue m (terminalStock m m.N m.S0))
  have hST : (terminalStock m m.N m.S0).length = m.N.toNat + 1 := by
    simp only [terminalStock, List.length_map, List.length_range]
    omega
  have hXT : (terminalValue m (terminalStock m m.N m.S0)).length = m.N.toNat + 1 := by
    simpa [terminalValue] using hST
  constructor
  · simp only [run_multiperiod_model]
    rw [hterm.1, List.getD_eq_getElem _ _ (by rw [hST]; omega)]
    simp only [terminalStock, List.getElem_map, List.getElem_range]
  · simp only [run_multiperiod_model]
    rw [hterm.2, List.getD_eq_getElem _ _ (by rw [hXT]; omega)]
    simp only [terminalValue, terminalStock, List.getElem_map, List.getElem_range]

/-- Witness for claim C5 at the concrete N = 1 scenario, down-count 1. -/
theorem claim_C5_terminal_witness :
    (0 : ℤ) ≤ mC1.N ∧ 1 ≤ mC1.N.toNat ∧
    (((run_multiperiod_model mC1).1.getD mC1.N.toNat []).getD 1 0
        = mC1.S0 * mC1.u ^ (mC1.N - (1 : ℤ)) * mC1.d ^ ((1 : ℕ) : ℤ) ∧
     ((run_multiperiod_model mC1).2.1.getD mC1.N.toNat []).getD 1 0
        = max (mC1.S0 * mC1.u ^ (mC1.N - (1 : ℤ)) * mC1.d ^ ((1 : ℕ) : ℤ) - mC1.K) 0) :=
  ⟨by norm_num [mC1], by norm_num [mC1],
    claim_C5_terminal mC1 (by norm_num [mC1]) 1 (by norm_num [mC1])⟩

/-- Claim C6: every successfully constructed instance stores
pi = ((1+r) − d)/(u − d) computed from its own parameters at
construction, and the stored value agrees with what the pure method
calculate_pi recomputes from the stored parameters. -/
theorem claim_C6_pi (stock strike : ℚ) (maturity : ℤ) (up down rate : ℚ)
    (m : SimpleBinomialModel)
    (h : SimpleBinomialModel.init stock strike maturity up down rate = .ok m) :
    m.pi = ((1 + rate) - down) / (up - down) ∧ m.calculate_pi = m.pi := by
  rw [SimpleBinomialModel.init] at h
  split_ifs at h
  simp only [Except.ok.injEq] at h
  subst h
  exact ⟨rfl, rfl⟩

/-- Witness for claim C6 at the concrete scenario instance. -/
theorem claim_C6_pi_witness :
    SimpleBinomialModel.init 100 100 1 (11/10) (9/10) 0 = .ok mC1 ∧
    (mC1.pi = ((1 + 0) - 9/10) / (11/10 - 9/10) ∧ mC1.calculate_pi = mC1.pi) := by
  have h : SimpleBinomialModel.init 100 100 1 (11/10) (9/10) 0 = .ok mC1 := by
    rw [SimpleBinomialModel.init, if_neg (by norm_num)]
    norm_num [mC1]
  exact ⟨h, claim_C6_pi 100 100 1 (11/10) (9/10) 0 mC1 h⟩

/-- Claim C7: for every pair of child values, option_price returns the
discounted risk-neutral expectation (π·Xu + (1−π)·Xd)/(1+r) with π the
stored probability. -/
theorem claim_C7_option_price (m : SimpleBinomialModel) (Xu Xd : ℚ) :
    m.option_price Xu Xd = (m.pi * Xu + (1 - m.pi) * Xd) / (1 + m.r) := rfl

/-- Claim C8: for every child-value pair and nonzero spot price S,
stock_position returns (Xu − Xd)/(S·(u − d)) and bond_position returns
(u·Xd − d·Xu)/((u−d)·(1+r)). -/
theorem claim_C8_hedge_formulas (m : SimpleBinomialModel) (Xu Xd S : ℚ)
    (_hS : S ≠ 0) :
    m.stock_position Xu Xd S = (Xu - Xd) / (S * (m.u - m.d)) ∧
    m.bond_position Xu Xd S = (m.u * Xd - m.d * Xu) / ((m.u - m.d) * (1 + m.r)) :=
  ⟨rfl, rfl⟩

/-- Witness for claim C8 at the concrete scenario instance with
Xu = 10, Xd = 0, S = 100. -/
theorem claim_C8_hedge_formulas_witness :
    (100 : ℚ) ≠ 0 ∧
    (mC1.stock_position 10 0 100 = (10 - 0) / (100 * (mC1.u - mC1.d)) ∧
     mC1.bond_position 10 0 100 = (mC1.u * 0 - mC1.d * 10) / ((mC1.u - mC1.d) * (1 + mC1.r))) :=
  ⟨by norm_num, claim_C8_hedge_formulas mC1 10 0 100 (by norm_num)⟩

/-- Claim C9 (replication identity): for every child-value pair and
nonzero spot S with u ≠ d and 1+r ≠ 0, the hedge delta and eta satisfy
delta·S·u + eta·(1+r) = Xu and delta·S·d + eta·(1+r) = Xd. -/
theorem claim_C9_replication (m : SimpleBinomialModel) (Xu Xd S : ℚ)
    (hS : S ≠ 0) (hud : m.u ≠ m.d) (hr : 1 + m.r ≠ 0) :
    m.stock_position Xu Xd S * S * m.u + m.bond_position Xu Xd S * (1 + m.r) = Xu ∧
    m.stock_position Xu Xd S * S * m.d + m.bond_position Xu Xd S * (1 + m.r) = Xd := by
  have hud' : m.u - m.d ≠ 0 := sub_ne_zero.mpr hud
  unfold SimpleBinomialModel.stock_position SimpleBinomialModel.bond_position
  constructor
  · field_simp
    ring
  · field_simp
    ring

/-- Witness for claim C9 at the concrete scenario instance with
Xu = 10, Xd = 0, S = 100. -/
theorem claim_C9_replication_witness :
    (100 : ℚ) ≠ 0 ∧ mC1.u ≠ mC1.d ∧ 1 + mC1.r ≠ 0 ∧
    (mC1.stock_position 10 0 100 * 100 * mC1.u
        + mC1.bond_position 10 0 100 * (1 + mC1.r) = 10 ∧
     mC1.stock_position 10 0 100 * 100 * mC1.d
        + mC1.bond_position 10 0 100 * (1 + mC1.r) = 0) :=
  ⟨by norm_num, by norm_num [mC1], by norm_num [mC1],
    claim_C9_replication mC1 10 0 100 (by norm_num) (by norm_num [mC1]) (by norm_num [mC1])⟩

/-- Claim C10: with zero periods, run_multiperiod_model (with the
spec's intended name binding) returns the one-node lattice: stock
prices [[S0]], option values [[max(S0−K, 0)]], and empty delta and eta
sequences. -/
theorem claim_C10_degenerate (m : SimpleBinomialModel) (h : m.N = 0) :
    run_multiperiod_model m = ([[m.S0]], [[max (m.S0 - m.K) 0]], [], []) := by
  simp [run_multiperiod_model, terminalStock, terminalValue, backLevels, h, List.range_succ]

/-- Witness for claim C10 at a concrete zero-period instance. -/
theorem claim_C10_degenerate_witness :
    mC10.N = 0 ∧
    run_multiperiod_model mC10 = ([[mC10.S0]], [[max (mC10.S0 - mC10.K) 0]], [], []) :=
  ⟨rfl, claim_C10_degenerate mC10 rfl⟩
